import Mathlib

/-!
Shallow embedding of the tcp-info netlink decoding core
(`github.com/michaelasp/test_tcp`): the message classifier
(`processSingleMessage`), the TLV splitter (`ParseRouteAttr`), the record
extractor (`MakeArchivalRecord`), the attribute codecs
(`RouteAttrValue.to*`) and the snapshot assembler (`Decode`).

Byte buffers are `List UInt8`; Go machine integers become `Nat` with the
wrap-around of conversions and shifts made explicit where the code relies
on it.  A Go function that can panic is embedded with an explicit
`panicked` outcome; a Go `(value, error)` pair becomes `GoResult`/`Except`.
-/

namespace Parser

/-- Error values of the pipeline, mirroring the named `Err*` values of the
`inetdiag` and `parser` packages (`ErrBadSequence`, `ErrBadPid`,
`ErrBadMsgData`, `ErrNotType20`, `ErrParseFailed`, the truncated-attribute
error of the TLV splitter, and the "empty record" error of `Decode`). -/
inductive Err where
  | badSequence
  | badPid
  | badMsgData
  | notType20
  | parseFailed
  | truncatedAttribute
  | emptyRecord
deriving DecidableEq, Repr

/-- Outcome of a Go computation: a normal value, a returned error value, or
a runtime panic. -/
inductive GoResult (α : Type) where
  | panicked
  | failed (e : Err)
  | ok (val : α)
deriving DecidableEq, Repr

/-- `syscall.NetlinkMessage` header (`NlMsghdr`): Len, Type, Flags, Seq, Pid. -/
structure NlMsghdr where
  msgLen : Nat
  msgType : Nat
  flags : Nat
  seq : Nat
  pid : Nat
deriving DecidableEq, Repr

/-- `syscall.NetlinkMessage`: header plus payload bytes. -/
structure NetlinkMessage where
  header : NlMsghdr
  data : List UInt8
deriving DecidableEq, Repr

/-- `unix.NLMSG_DONE`. -/
def NLMSG_DONE : Nat := 3

/-- `unix.NLMSG_ERROR`. -/
def NLMSG_ERROR : Nat := 2

/-- `unix.NLM_F_MULTI`. -/
def NLM_F_MULTI : Nat := 2

/-- `inetdiag.SOCK_DIAG_BY_FAMILY`, the expected message type (20). -/
def SOCK_DIAG_BY_FAMILY : Nat := 20

/-- Modelled from the spec: `INET_DIAG_MAX`, the protocol-declared maximum
attribute type of the `inetdiag` package (whose constant file is not under
`src/`); the kernel header enumerates attribute types up to
`INET_DIAG_MD5SIG = 18`. -/
def INET_DIAG_MAX : Nat := 18

/-- `SizeofRtAttr`: size of the netlink route-attribute header
(`Len uint16`, `Type uint16`). -/
def SizeofRtAttr : Nat := 4

/-- `rtaAlignOf`: rounds a length up to the 4-byte netlink alignment
boundary (`(attrlen + RTA_ALIGNTO - 1) & ~(RTA_ALIGNTO - 1)`). -/
def rtaAlignOf (attrlen : Nat) : Nat := (attrlen + 3) / 4 * 4

/-- Native-endian `Uint32` of the first four bytes of a buffer (the
supported platforms are little-endian); indices past the end read 0, but
every caller first checks that four bytes are present. -/
def nativeUint32 (b : List UInt8) : Nat :=
  (b.getD 0 0).toNat + 256 * (b.getD 1 0).toNat +
    65536 * (b.getD 2 0).toNat + 16777216 * (b.getD 3 0).toNat

/-- `NetlinkRouteAttr`: one parsed TLV attribute — its header fields
(`RtAttr.Len`, `RtAttr.Type`) flattened in, plus the value bytes. -/
structure NetlinkRouteAttr where
  attrLen : Nat
  attrType : Nat
  value : List UInt8
deriving DecidableEq, Repr

/-- Modelled from the spec: `netlinkRouteAttrAndValue`, the helper of the
`parser` package missing from `src/` (derived, as the package says, from
`vishvananda/netlink`): it reads the native-endian attribute header from
the front of the buffer and fails when the declared length is smaller than
the header or larger than the remaining bytes; on success it returns the
header fields, the buffer past the header, and the aligned advance. -/
def netlinkRouteAttrAndValue (b : List UInt8) :
    Except Err ((Nat × Nat) × List UInt8 × Nat) :=
  let aLen := (b.getD 0 0).toNat + 256 * (b.getD 1 0).toNat
  let aType := (b.getD 2 0).toNat + 256 * (b.getD 3 0).toNat
  if aLen < SizeofRtAttr ∨ b.length < aLen then .error .truncatedAttribute
  else .ok ((aLen, aType), b.drop SizeofRtAttr, rtaAlignOf aLen)

theorem netlinkRouteAttrAndValue_alen (b : List UInt8) (hd : Nat × Nat)
    (vbuf : List UInt8) (alen : Nat)
    (h : netlinkRouteAttrAndValue b = .ok (hd, vbuf, alen)) : 4 ≤ alen := by
  simp only [netlinkRouteAttrAndValue] at h
  split at h
  · exact absurd h (by simp)
  · rename_i hcond
    simp only [Except.ok.injEq, Prod.mk.injEq] at h
    obtain ⟨-, -, halen⟩ := h
    subst halen
    simp only [rtaAlignOf, SizeofRtAttr, not_or, not_lt] at hcond ⊢
    omega

/-- `ParseRouteAttr`: the TLV splitter.  The loop runs while at least a
full attribute header remains; a buffer (empty or not) shorter than the
header size yields the attributes collected so far.  The advance past an
attribute (`b = b[alen:]`) panics when the aligned length runs past the
end of the buffer. -/
def ParseRouteAttr (b : List UInt8) : GoResult (List NetlinkRouteAttr) :=
  if b.length < SizeofRtAttr then .ok []
  else
    match hh : netlinkRouteAttrAndValue b with
    | .error e => .failed e
    | .ok ((aLen, aType), vbuf, alen) =>
      let ra : NetlinkRouteAttr := ⟨aLen, aType, vbuf.take (aLen - SizeofRtAttr)⟩
      if b.length < alen then .panicked
      else
        match ParseRouteAttr (b.drop alen) with
        | .ok rest => .ok (ra :: rest)
        | .failed e => .failed e
        | .panicked => .panicked
termination_by b.length
decreasing_by
  have h4 := netlinkRouteAttrAndValue_alen b _ _ _ hh
  simp only [List.length_drop]
  omega

/-- `parser.Metadata`: connection-level metadata. -/
structure Metadata where
  uuid : String
  sequence : Int
  startTime : Nat
deriving DecidableEq, Repr

/-- `parser.ArchivalRecord`: timestamp, raw diagnostic header bytes
(`RawIDM`, a nilable byte slice), the attribute table (`Attributes`, a
slice of nilable byte slices indexed by attribute type), and optional
metadata. -/
structure ArchivalRecord where
  timestamp : Nat
  rawIDM : Option (List UInt8)
  attributes : List (Option (List UInt8))
  metadata : Option Metadata
deriving DecidableEq, Repr

/-- Modelled from the spec: the byte size of `inetdiag.InetDiagMsg` (whose
struct definition is not under `src/`), already a multiple of the 4-byte
alignment: 4 one-byte fields, the 48-byte socket id, and 5 four-byte
fields = 72 bytes of fixed kernel ABI header. -/
def inetDiagMsgSize : Nat := 72

/-- Modelled from the spec: `inetdiag.SplitInetDiagMsg` (not under `src/`)
splits a message payload into the fixed-size raw header block and the
remaining attribute bytes, returning nil when the payload is shorter than
the header. -/
def SplitInetDiagMsg (data : List UInt8) :
    Option (List UInt8 × List UInt8) :=
  if data.length < inetDiagMsgSize then none
  else some (data.take inetDiagMsgSize, data.drop inetDiagMsgSize)

/-- `RawInetDiagMsg.Parse` (mirroring `parser.Parse` in the source): fails
with the parse-failed error when the raw block is shorter than the aligned
struct size, otherwise reinterprets the leading bytes as the header
struct (embedded as those bytes). -/
def RawInetDiagMsgParse (raw : List UInt8) : Except Err (List UInt8) :=
  if raw.length < inetDiagMsgSize then .error .parseFailed
  else .ok (raw.take inetDiagMsgSize)

/-- The maximum attribute type observed in a TLV list (the first loop of
`MakeArchivalRecord`, starting from 0). -/
def maxAttrTypeOf (attrs : List NetlinkRouteAttr) : Nat :=
  attrs.foldl (fun mx a => max mx a.attrType) 0

/-- The value of the last attribute of type `t` in a TLV list, if any —
the characterization of one attribute-table slot after last-write-wins
deduplication. -/
def lastAttrValue (attrs : List NetlinkRouteAttr) (t : Nat) :
    Option (List UInt8) :=
  attrs.foldl (fun acc a => if a.attrType = t then some a.value else acc) none

/-- `MakeArchivalRecord` as invoked by this repository (`skipLocal =
false`): checks the message type, splits off the raw header, splits the
attribute bytes into TLVs, and builds the attribute table sized by the
maximum observed type clamped to `2*INET_DIAG_MAX`, skipping larger types
and letting a later duplicate overwrite an earlier one. -/
def MakeArchivalRecord (msg : NetlinkMessage) : GoResult ArchivalRecord :=
  if msg.header.msgType ≠ SOCK_DIAG_BY_FAMILY then .failed .notType20
  else
    match SplitInetDiagMsg msg.data with
    | none => .failed .parseFailed
    | some (raw, attrBytes) =>
      match ParseRouteAttr attrBytes with
      | .panicked => .panicked
      | .failed e => .failed e
      | .ok attrs =>
        let maxAttrType :=
          if maxAttrTypeOf attrs > 2 * INET_DIAG_MAX then 2 * INET_DIAG_MAX
          else maxAttrTypeOf attrs
        let table := attrs.foldl
          (fun tbl a =>
            if a.attrType > maxAttrType then tbl
            else tbl.set a.attrType (some a.value))
          (List.replicate (maxAttrType + 1) none)
        .ok { timestamp := 0, rawIDM := some raw,
              attributes := table, metadata := none }

/-- `processSingleMessage`: the message classifier.  Sequence and pid are
checked first; `NLMSG_DONE` ends the stream; an `NLMSG_ERROR` message
needs four payload bytes, a zero embedded code is benign, and a non-zero
code is only logged before falling through to the multi-part check. -/
def processSingleMessage (m : NetlinkMessage) (seq pid : Nat) :
    Option NetlinkMessage × Bool × Option Err :=
  if m.header.seq ≠ seq then (none, false, some .badSequence)
  else if m.header.pid ≠ pid then (none, false, some .badPid)
  else if m.header.msgType = NLMSG_DONE then (none, false, none)
  else if m.header.msgType = NLMSG_ERROR ∧ m.data.length < 4 then
    (none, false, some .badMsgData)
  else if m.header.msgType = NLMSG_ERROR ∧ nativeUint32 m.data = 0 then
    (none, false, none)
  else if m.header.flags &&& NLM_F_MULTI = 0 then (some m, false, none)
  else (some m, true, none)

/-- `RouteAttrValue`, the type of raw attribute value bytes. -/
abbrev RouteAttrValue := List UInt8

/-- Modelled from the spec: byte size of `inetdiag.MemInfo`
(4 × uint32). -/
def memInfoSize : Nat := 16

/-- Modelled from the spec: byte size of `tcp.LinuxTCPInfo`, the mirror of
the kernel `tcp_info` struct; the exact value is a fixed ABI constant not
under `src/` and no claim depends on it. -/
def tcpInfoSize : Nat := 224

/-- Modelled from the spec: byte size of `inetdiag.VegasInfo`
(4 × uint32). -/
def vegasInfoSize : Nat := 16

/-- Modelled from the spec: byte size of `inetdiag.SocketMemInfo`
(9 × uint32). -/
def socketMemInfoSize : Nat := 36

/-- Modelled from the spec: byte size of `inetdiag.DCTCPInfo`
(2 × uint16 + 3 × uint32). -/
def dctcpInfoSize : Nat := 16

/-- Modelled from the spec: byte size of `inetdiag.BBRInfo`
(5 × uint32). -/
def bbrInfoSize : Nat := 20

/-- `maybeCopy`: if the source is shorter than the struct size it
zero-pads into a fresh buffer of the struct size and reports `true`;
otherwise it reinterprets the source in place (the struct view being its
leading `size` bytes) and reports whether the length matches exactly. -/
def maybeCopy (src : List UInt8) (size : Nat) : List UInt8 × Bool :=
  if src.length < size then
    (src ++ List.replicate (size - src.length) 0, true)
  else (src.take size, src.length == size)

/-- `RouteAttrValue.toMemInfo`. -/
def RouteAttrValue.toMemInfo (raw : RouteAttrValue) : List UInt8 × Bool :=
  maybeCopy raw memInfoSize

/-- `RouteAttrValue.toLinuxTCPInfo`. -/
def RouteAttrValue.toLinuxTCPInfo (raw : RouteAttrValue) : List UInt8 × Bool :=
  maybeCopy raw tcpInfoSize

/-- `RouteAttrValue.toVegasInfo`. -/
def RouteAttrValue.toVegasInfo (raw : RouteAttrValue) : List UInt8 × Bool :=
  maybeCopy raw vegasInfoSize

/-- `RouteAttrValue.toSockMemInfo`. -/
def RouteAttrValue.toSockMemInfo (raw : RouteAttrValue) : List UInt8 × Bool :=
  maybeCopy raw socketMemInfoSize

/-- `RouteAttrValue.toDCTCPInfo`. -/
def RouteAttrValue.toDCTCPInfo (raw : RouteAttrValue) : List UInt8 × Bool :=
  maybeCopy raw dctcpInfoSize

/-- `RouteAttrValue.toBBRInfo`. -/
def RouteAttrValue.toBBRInfo (raw : RouteAttrValue) : List UInt8 × Bool :=
  maybeCopy raw bbrInfoSize

/-- `RouteAttrValue.CongestionAlgorithm`: returns the value bytes with the
trailing NUL dropped (`raw[:len(raw)-1]`).  On an empty value the slice
bound `len(raw)-1` is `-1`, a runtime panic, embedded as `none`. -/
def RouteAttrValue.CongestionAlgorithm (raw : RouteAttrValue) :
    Option (List UInt8 × Bool) :=
  if raw.length = 0 then none
  else some (raw.take (raw.length - 1), true)

/-- `RouteAttrValue.toUint8`: first byte of the value, failing on an empty
buffer (with the zero value still assigned). -/
def RouteAttrValue.toUint8 (raw : RouteAttrValue) : Nat × Bool :=
  match raw with
  | [] => (0, false)
  | b :: _ => (b.toNat, true)

/-- `RouteAttrValue.toTOS`. -/
def RouteAttrValue.toTOS (raw : RouteAttrValue) : Nat × Bool := raw.toUint8

/-- `RouteAttrValue.toTCLASS`. -/
def RouteAttrValue.toTCLASS (raw : RouteAttrValue) : Nat × Bool := raw.toUint8

/-- `RouteAttrValue.toClassID`. -/
def RouteAttrValue.toClassID (raw : RouteAttrValue) : Nat × Bool := raw.toUint8

/-- `RouteAttrValue.toShutdown`. -/
def RouteAttrValue.toShutdown (raw : RouteAttrValue) : Nat × Bool := raw.toUint8

/-- `RouteAttrValue.toProtocol`. -/
def RouteAttrValue.toProtocol (raw : RouteAttrValue) : Nat × Bool := raw.toUint8

/-- `RouteAttrValue.toMark`: requires exactly four bytes, read
native-endian. -/
def RouteAttrValue.toMark (raw : RouteAttrValue) : Nat × Bool :=
  if raw.length ≠ 4 then (0, false) else (nativeUint32 raw, true)

/-- `parser.Snapshot`: the terminal decoded entity.  Struct-typed fields
are embedded as the raw byte block the Go pointer views, nilable where the
Go field is a pointer. -/
structure Snapshot where
  timestamp : Nat
  observed : Nat
  notFullyParsed : Nat
  inetDiagMsg : Option (List UInt8)
  congestionAlgorithm : List UInt8
  tos : Nat
  tclass : Nat
  classID : Nat
  shutdown : Nat
  protocol : Nat
  mark : Nat
  tcpInfo : Option (List UInt8)
  memInfo : Option (List UInt8)
  socketMem : Option (List UInt8)
  vegasInfo : Option (List UInt8)
  dctcpInfo : Option (List UInt8)
  bbrInfo : Option (List UInt8)
deriving DecidableEq, Repr

/-- The Go zero value `Snapshot{}`. -/
def Snapshot.empty : Snapshot :=
  { timestamp := 0, observed := 0, notFullyParsed := 0, inetDiagMsg := none,
    congestionAlgorithm := [], tos := 0, tclass := 0, classID := 0,
    shutdown := 0, protocol := 0, mark := 0, tcpInfo := none,
    memInfo := none, socketMem := none, vegasInfo := none,
    dctcpInfo := none, bbrInfo := none }

/-- The per-type bit `uint32(1) << uint8(t-1)` of `Decode`, with Go
semantics made explicit: the shift amount is `t-1` truncated to eight
bits, and a `uint32` shifted by 32 or more is 0. -/
def goBit (t : Nat) : Nat :=
  if (t + 255) % 256 < 32 then 2 ^ ((t + 255) % 256) else 0

/-- The switch of `Decode` on one attribute type: decodes the value into
the matching snapshot field and reports the codec's `ok` flag.  Types 0,
11–14, 18 and unknown types leave `ok` false (11–14 and 18 are recognized
but only logged). -/
def attrSwitch (t : Nat) (raw : List UInt8) (s : Snapshot) :
    GoResult (Snapshot × Bool) :=
  match t with
  | 1 => let r := RouteAttrValue.toMemInfo raw
         .ok ({ s with memInfo := some r.1 }, r.2)
  | 2 => let r := RouteAttrValue.toLinuxTCPInfo raw
         .ok ({ s with tcpInfo := some r.1 }, r.2)
  | 3 => let r := RouteAttrValue.toVegasInfo raw
         .ok ({ s with vegasInfo := some r.1 }, r.2)
  | 4 => match RouteAttrValue.CongestionAlgorithm raw with
         | none => .panicked
         | some r => .ok ({ s with congestionAlgorithm := r.1 }, r.2)
  | 5 => let r := RouteAttrValue.toTOS raw
         .ok ({ s with tos := r.1 }, r.2)
  | 6 => let r := RouteAttrValue.toTCLASS raw
         .ok ({ s with tclass := r.1 }, r.2)
  | 7 => let r := RouteAttrValue.toSockMemInfo raw
         .ok ({ s with socketMem := some r.1 }, r.2)
  | 8 => let r := RouteAttrValue.toShutdown raw
         .ok ({ s with shutdown := r.1 }, r.2)
  | 9 => let r := RouteAttrValue.toDCTCPInfo raw
         .ok ({ s with dctcpInfo := some r.1 }, r.2)
  | 10 => let r := RouteAttrValue.toProtocol raw
          .ok ({ s with protocol := r.1 }, r.2)
  | 15 => let r := RouteAttrValue.toMark raw
          .ok ({ s with mark := r.1 }, r.2)
  | 16 => let r := RouteAttrValue.toBBRInfo raw
          .ok ({ s with bbrInfo := some r.1 }, r.2)
  | 17 => let r := RouteAttrValue.toClassID raw
          .ok ({ s with classID := r.1 }, r.2)
  | _ => .ok (s, false)

/-- One iteration of the attribute loop of `Decode`: run the switch, then
set the `Observed` bit and, when the codec reported failure, the
`NotFullyParsed` bit. -/
def decodeOneAttr (t : Nat) (raw : List UInt8) (s : Snapshot) :
    GoResult Snapshot :=
  match attrSwitch t raw s with
  | .panicked => .panicked
  | .failed e => .failed e
  | .ok r =>
    .ok { r.1 with
          observed := r.1.observed ||| goBit t,
          notFullyParsed :=
            if r.2 then r.1.notFullyParsed
            else r.1.notFullyParsed ||| goBit t }

/-- The attribute loop of `Decode` over the table, skipping nil entries,
with `t` the running index. -/
def decodeAttrs (t : Nat) (l : List (Option (List UInt8))) (s : Snapshot) :
    GoResult Snapshot :=
  match l with
  | [] => .ok s
  | none :: rest => decodeAttrs (t + 1) rest s
  | some raw :: rest =>
    match decodeOneAttr t raw s with
    | .panicked => .panicked
    | .failed e => .failed e
    | .ok s2 => decodeAttrs (t + 1) rest s2

/-- The `if ar.RawIDM != nil` block of `Decode`: parse the raw header when
present (propagating its error), else leave the header field nil. -/
def parseHeaderField (rawIDM : Option (List UInt8)) :
    Except Err (Option (List UInt8)) :=
  match rawIDM with
  | none => .ok none
  | some raw =>
    match RawInetDiagMsgParse raw with
    | .error e => .error e
    | .ok idm => .ok (some idm)

/-- `Decode`, the snapshot assembler: rejects a record with neither header
nor metadata, parses the raw header when present (a failure there is
fatal), then folds the attribute table into the snapshot. -/
def Decode (ar : ArchivalRecord) : GoResult (Option Metadata × Snapshot) :=
  if ar.metadata.isNone && ar.rawIDM.isNone then .failed .emptyRecord
  else
    let s0 := { Snapshot.empty with timestamp := ar.timestamp }
    match parseHeaderField ar.rawIDM with
    | .error e => .failed e
    | .ok idm =>
      match decodeAttrs 0 ar.attributes { s0 with inetDiagMsg := idm } with
      | .panicked => .panicked
      | .failed e => .failed e
      | .ok snap => .ok (ar.metadata, snap)

/-- A sample record carrying one full-size MemInfo attribute at index 1. -/
def arMemInfo : ArchivalRecord :=
  ⟨0, none, [none, some (List.replicate 16 0)], some ⟨"u", 0, 0⟩⟩

/-- The snapshot `Decode` produces for `arMemInfo`. -/
def snapMemInfo : Snapshot :=
  { Snapshot.empty with observed := 1, memInfo := some (List.replicate 16 0) }

/-- A sample record carrying one SKV6ONLY attribute (type 11). -/
def arSkv6 : ArchivalRecord :=
  ⟨0, none,
   [none, none, none, none, none, none, none, none, none, none, none,
    some []],
   some ⟨"u", 0, 0⟩⟩

/-- The snapshot `Decode` produces for `arSkv6`: bit 10 set in both
masks. -/
def snapSkv6 : Snapshot :=
  { Snapshot.empty with observed := 1024, notFullyParsed := 1024 }

/-- A sample netlink message: type 20, a zero 72-byte header, and one
8-byte attribute of type 5 with value `[1, 2, 3, 4]`. -/
def msgSample : NetlinkMessage :=
  ⟨⟨96, 20, 0, 0, 0⟩, List.replicate 72 0 ++ [8, 0, 5, 0, 1, 2, 3, 4]⟩

/-- The TLV list of `msgSample`. -/
def attrsSample : List NetlinkRouteAttr := [⟨8, 5, [1, 2, 3, 4]⟩]

/-- The archival record `MakeArchivalRecord` produces for `msgSample`. -/
def recSample : ArchivalRecord :=
  ⟨0, some (List.replicate 72 0),
   [none, none, none, none, none, some [1, 2, 3, 4]], none⟩

instance {ε α : Type _} [DecidableEq ε] [DecidableEq α] :
    DecidableEq (Except ε α) := fun x y => by
  cases x <;> cases y
  case error.error a b => exact decidable_of_iff (a = b) (by simp)
  case error.ok a b => exact isFalse (by simp)
  case ok.error a b => exact isFalse (by simp)
  case ok.ok a b => exact decidable_of_iff (a = b) (by simp)

theorem ParseRouteAttr_short (b : List UInt8) (h : b.length < SizeofRtAttr) :
    ParseRouteAttr b = .ok [] := by
  rw [ParseRouteAttr.eq_def]
  simp [h]

theorem ParseRouteAttr_step (b : List UInt8) (h : ¬ b.length < SizeofRtAttr)
    (aLen aType : Nat) (vbuf : List UInt8) (alen : Nat)
    (hh : netlinkRouteAttrAndValue b = .ok ((aLen, aType), vbuf, alen))
    (hal : ¬ b.length < alen) :
    ParseRouteAttr b =
      (match ParseRouteAttr (b.drop alen) with
       | .ok rest => .ok (⟨aLen, aType, vbuf.take (aLen - SizeofRtAttr)⟩ :: rest)
       | .failed e => .failed e
       | .panicked => .panicked) := by
  rw [ParseRouteAttr.eq_def]
  simp only [h, if_false]
  split
  · rename_i e heq
    rw [hh] at heq
    cases heq
  · rename_i a b' c heq
    rw [hh] at heq
    obtain ⟨⟨h1, h2⟩, h3, h4⟩ := by simpa using heq
    subst h1; subst h2; subst h3; subst h4
    simp only [hal, if_false]

theorem maybeCopy_short (src : List UInt8) (size : Nat)
    (h : src.length < size) :
    maybeCopy src size = (src ++ List.replicate (size - src.length) 0, true) := by
  simp [maybeCopy, h]

/-- C1 (amended): for every fixed-size struct attribute codec and every
input strictly shorter than the expected struct size, decoding never
fails: the value is the input zero-padded to the struct size, but the
reported flag is `true`, not `false` — `maybeCopy` reports `false` only
for oversized buffers. -/
theorem C1_size_tolerance (raw : RouteAttrValue) :
    (raw.length < memInfoSize →
      RouteAttrValue.toMemInfo raw =
        (raw ++ List.replicate (memInfoSize - raw.length) 0, true)) ∧
    (raw.length < tcpInfoSize →
      RouteAttrValue.toLinuxTCPInfo raw =
        (raw ++ List.replicate (tcpInfoSize - raw.length) 0, true)) ∧
    (raw.length < vegasInfoSize →
      RouteAttrValue.toVegasInfo raw =
        (raw ++ List.replicate (vegasInfoSize - raw.length) 0, true)) ∧
    (raw.length < socketMemInfoSize →
      RouteAttrValue.toSockMemInfo raw =
        (raw ++ List.replicate (socketMemInfoSize - raw.length) 0, true)) ∧
    (raw.length < dctcpInfoSize →
      RouteAttrValue.toDCTCPInfo raw =
        (raw ++ List.replicate (dctcpInfoSize - raw.length) 0, true)) ∧
    (raw.length < bbrInfoSize →
      RouteAttrValue.toBBRInfo raw =
        (raw ++ List.replicate (bbrInfoSize - raw.length) 0, true)) :=
  ⟨fun h => maybeCopy_short raw _ h, fun h => maybeCopy_short raw _ h,
   fun h => maybeCopy_short raw _ h, fun h => maybeCopy_short raw _ h,
   fun h => maybeCopy_short raw _ h, fun h => maybeCopy_short raw _ h⟩

/-- C1 witness: the amended law evaluated at the empty buffer. -/
theorem C1_witness :
    RouteAttrValue.toMemInfo [] = (List.replicate 16 0, true) ∧
    RouteAttrValue.toLinuxTCPInfo [] = (List.replicate 224 0, true) ∧
    RouteAttrValue.toVegasInfo [] = (List.replicate 16 0, true) ∧
    RouteAttrValue.toSockMemInfo [] = (List.replicate 36 0, true) ∧
    RouteAttrValue.toDCTCPInfo [] = (List.replicate 16 0, true) ∧
    RouteAttrValue.toBBRInfo [] = (List.replicate 20 0, true) := by
  have h := C1_size_tolerance []
  exact ⟨by simpa using h.1 (by decide), by simpa using h.2.1 (by decide),
         by simpa using h.2.2.1 (by decide), by simpa using h.2.2.2.1 (by decide),
         by simpa using h.2.2.2.2.1 (by decide), by simpa using h.2.2.2.2.2 (by decide)⟩

/-- C1 counterexample: on a buffer strictly shorter than the MemInfo
struct size the codec reports `fullyParsed = true`, not `false` as the
claim states. -/
theorem C1_counterexample :
    ([] : RouteAttrValue).length < memInfoSize ∧
    (RouteAttrValue.toMemInfo []).2 ≠ false := by decide

/-- C4: the congestion-algorithm codec panics on the empty (non-nil)
value buffer — `raw[:len(raw)-1]` with a negative bound — and the panic is
reachable through `Decode` from a record whose CONG attribute slot holds
an empty value, contradicting the no-panic guarantee. -/
theorem C4_congestion_panic :
    RouteAttrValue.CongestionAlgorithm [] = none ∧
    Decode ⟨0, none, [none, none, none, none, some []], some ⟨"u", 0, 0⟩⟩ =
      .panicked := by decide

/-- C5 (amended): `split` on any buffer shorter than the minimum attribute
header size — empty or not — returns an empty attribute sequence and no
error; the leftover bytes are simply ignored. -/
theorem C5_split_short (b : List UInt8) (h : b.length < SizeofRtAttr) :
    ParseRouteAttr b = .ok [] :=
  ParseRouteAttr_short b h

/-- C5 witness: a three-byte buffer splits to the empty sequence. -/
theorem C5_witness : ParseRouteAttr [0, 0, 0] = .ok [] :=
  C5_split_short [0, 0, 0] (by decide)

/-- C5 counterexample: a non-empty one-byte buffer does not fail with a
truncated-attribute error; it yields the empty sequence with no error. -/
theorem C5_counterexample :
    ParseRouteAttr [0] = .ok [] ∧ ([0] : List UInt8) ≠ [] :=
  ⟨ParseRouteAttr_short [0] (by decide), by decide⟩

/-- C6 (amended): a message of type `NLMSG_DONE` whose sequence number and
pid match the expected ones yields `(nil, false, nil)`; the sequence/pid
checks run first, so the claim cannot hold for arbitrary expected
values. -/
theorem C6_done (m : NetlinkMessage) (seq pid : Nat)
    (ht : m.header.msgType = NLMSG_DONE)
    (hs : m.header.seq = seq) (hp : m.header.pid = pid) :
    processSingleMessage m seq pid = (none, false, none) := by
  simp [processSingleMessage, ht, hs, hp]

/-- C6 witness: a concrete DONE message with matching seq/pid. -/
theorem C6_witness :
    processSingleMessage ⟨⟨16, 3, 0, 7, 9⟩, []⟩ 7 9 = (none, false, none) :=
  C6_done ⟨⟨16, 3, 0, 7, 9⟩, []⟩ 7 9 rfl rfl rfl

/-- C6 counterexample: a DONE message with a mismatched expected sequence
number yields the bad-sequence error, not `(nil, false, nil)`. -/
theorem C6_counterexample :
    (⟨⟨16, 3, 0, 0, 0⟩, []⟩ : NetlinkMessage).header.msgType = NLMSG_DONE ∧
    processSingleMessage ⟨⟨16, 3, 0, 0, 0⟩, []⟩ 1 0 ≠ (none, false, none) ∧
    processSingleMessage ⟨⟨16, 3, 0, 0, 0⟩, []⟩ 1 0 =
      (none, false, some .badSequence) := by decide

/-- C7: a sequence or pid mismatch always yields no accepted message and a
non-nil error — bad-sequence when the sequence differs (checked first),
bad-pid when the sequence matches but the pid differs — regardless of the
message type or flags. -/
theorem C7_mismatch (m : NetlinkMessage) (seq pid : Nat)
    (h : m.header.seq ≠ seq ∨ m.header.pid ≠ pid) :
    (processSingleMessage m seq pid).1 = none ∧
    (processSingleMessage m seq pid).2.2 ≠ none ∧
    (m.header.seq ≠ seq →
      (processSingleMessage m seq pid).2.2 = some .badSequence) ∧
    (m.header.seq = seq →
      (processSingleMessage m seq pid).2.2 = some .badPid) := by
  by_cases hs : m.header.seq = seq
  · have hp : m.header.pid ≠ pid := by
      rcases h with h | h
      · exact absurd hs h
      · exact h
    simp [processSingleMessage, hs, hp]
  · simp [processSingleMessage, hs]

/-- C7 witness: a pid mismatch on a DONE-typed multi-flagged message. -/
theorem C7_witness :
    (processSingleMessage ⟨⟨16, 3, 2, 5, 6⟩, []⟩ 5 7).1 = none ∧
    (processSingleMessage ⟨⟨16, 3, 2, 5, 6⟩, []⟩ 5 7).2.2 = some .badPid := by
  have h := C7_mismatch ⟨⟨16, 3, 2, 5, 6⟩, []⟩ 5 7 (Or.inr (by decide))
  exact ⟨h.1, h.2.2.2 rfl⟩

/-- C10 (amended): for an `NLMSG_ERROR` message passing the sequence/pid
checks and carrying at least four payload bytes, a zero embedded code
yields `(nil, false, nil)`; a non-zero code is only logged — the message
itself is returned as accepted with a nil error, continuing per the
multi-part flag — rather than surfaced as an error value. -/
theorem C10_error_message (m : NetlinkMessage) (seq pid : Nat)
    (ht : m.header.msgType = NLMSG_ERROR)
    (hs : m.header.seq = seq) (hp : m.header.pid = pid)
    (hlen : 4 ≤ m.data.length) :
    (nativeUint32 m.data = 0 →
      processSingleMessage m seq pid = (none, false, none)) ∧
    (nativeUint32 m.data ≠ 0 → m.header.flags &&& NLM_F_MULTI = 0 →
      processSingleMessage m seq pid = (some m, false, none)) ∧
    (nativeUint32 m.data ≠ 0 → m.header.flags &&& NLM_F_MULTI ≠ 0 →
      processSingleMessage m seq pid = (some m, true, none)) := by
  have hnd : NLMSG_ERROR ≠ NLMSG_DONE := by decide
  refine ⟨fun h0 => ?_, fun hne hf => ?_, fun hne hf => ?_⟩
  · simp [processSingleMessage, hs, hp, ht, hnd, h0, Nat.not_lt.mpr hlen]
  · simp [processSingleMessage, hs, hp, ht, hnd, hne, hf, Nat.not_lt.mpr hlen]
  · simp [processSingleMessage, hs, hp, ht, hnd, hne, hf, Nat.not_lt.mpr hlen]

/-- C10 witness: a zero code is benign; a non-zero code on a multi-part
message is returned as an accepted message with a nil error. -/
theorem C10_witness :
    processSingleMessage ⟨⟨16, 2, 0, 0, 0⟩, [0, 0, 0, 0]⟩ 0 0 =
      (none, false, none) ∧
    processSingleMessage ⟨⟨16, 2, 2, 0, 0⟩, [7, 0, 0, 0]⟩ 0 0 =
      (some ⟨⟨16, 2, 2, 0, 0⟩, [7, 0, 0, 0]⟩, true, none) := by
  refine ⟨?_, ?_⟩
  · exact (C10_error_message ⟨⟨16, 2, 0, 0, 0⟩, [0, 0, 0, 0]⟩ 0 0 rfl rfl rfl
      (by decide)).1 (by decide)
  · exact (C10_error_message ⟨⟨16, 2, 2, 0, 0⟩, [7, 0, 0, 0]⟩ 0 0 rfl rfl rfl
      (by decide)).2.2 (by decide) (by decide)

theorem goBit_testBit_self (t : Nat) (h1 : 1 ≤ t) (h2 : t ≤ 32) :
    (goBit t).testBit (t - 1) = true := by
  unfold goBit
  have hm : (t + 255) % 256 = t - 1 := by omega
  rw [hm, if_pos (by omega), Nat.testBit_two_pow]
  simp

theorem goBit_testBit_ne (i t : Nat) (hi : i ≤ 256) (h1 : 1 ≤ t) (h2 : t ≤ 32)
    (hne : i ≠ t) : (goBit i).testBit (t - 1) = false := by
  unfold goBit
  split
  · rename_i hlt
    rw [Nat.testBit_two_pow]
    simp only [decide_eq_false_iff_not]
    omega
  · exact Nat.zero_testBit _

theorem attrSwitch_ok_bits (t : Nat) (raw : List UInt8) (s s2 : Snapshot)
    (ok : Bool) (h : attrSwitch t raw s = .ok (s2, ok)) :
    s2.observed = s.observed ∧ s2.notFullyParsed = s.notFullyParsed := by
  unfold attrSwitch at h
  split at h
  all_goals try (split at h)
  all_goals
    first
      | (simp only [GoResult.ok.injEq, Prod.mk.injEq] at h
         obtain ⟨h1, -⟩ := h
         subst h1
         exact ⟨rfl, rfl⟩)
      | simp at h

theorem attrSwitch_ne_failed (t : Nat) (raw : List UInt8) (s : Snapshot)
    (e : Err) : attrSwitch t raw s ≠ .failed e := by
  unfold attrSwitch
  split
  all_goals try split
  all_goals simp

theorem decodeOneAttr_ok (t : Nat) (raw : List UInt8) (s s' : Snapshot)
    (h : decodeOneAttr t raw s = .ok s') :
    s'.observed = s.observed ||| goBit t ∧
    (s'.notFullyParsed = s.notFullyParsed ∨
     s'.notFullyParsed = s.notFullyParsed ||| goBit t) := by
  unfold decodeOneAttr at h
  split at h
  · cases h
  · cases h
  · rename_i r heq
    obtain ⟨ho, hn⟩ := attrSwitch_ok_bits t raw s r.1 r.2 heq
    simp only [GoResult.ok.injEq] at h
    subst h
    refine ⟨by simp [ho], ?_⟩
    by_cases hr : r.2
    · simp [hr, hn]
    · simp [hr, hn]

theorem decodeOneAttr_ne_failed (t : Nat) (raw : List UInt8) (s : Snapshot)
    (e : Err) : decodeOneAttr t raw s ≠ .failed e := by
  unfold decodeOneAttr
  split
  · simp
  · rename_i e2 heq
    exact absurd heq (attrSwitch_ne_failed t raw s e2)
  · simp

theorem decodeAttrs_ne_failed (l : List (Option (List UInt8))) :
    ∀ t0 s e, decodeAttrs t0 l s ≠ .failed e := by
  induction l with
  | nil => intro t0 s e; simp [decodeAttrs]
  | cons a rest ih =>
    intro t0 s e
    cases a with
    | none => simpa [decodeAttrs] using ih (t0 + 1) s e
    | some raw =>
      simp only [decodeAttrs]
      split
      · simp
      · rename_i e2 heq
        exact absurd heq (decodeOneAttr_ne_failed t0 raw s e2)
      · rename_i s2 heq
        exact ih (t0 + 1) s2 e

theorem exists_idx_cons (a : Option (List UInt8))
    (rest : List (Option (List UInt8))) (P : Nat → Prop) :
    (∃ i, i < (a :: rest).length ∧ ((a :: rest).getD i none).isSome = true ∧ P i) ↔
      ((a.isSome = true ∧ P 0) ∨
       ∃ j, j < rest.length ∧ ((rest.getD j none).isSome = true ∧ P (j + 1))) := by
  constructor
  · rintro ⟨i, hi, hs, hp⟩
    match i with
    | 0 => exact Or.inl ⟨by simpa using hs, hp⟩
    | (j+1) => exact Or.inr ⟨j, by simpa using hi, by simpa using hs, hp⟩
  · rintro (⟨hs, hp⟩ | ⟨j, hj, hs, hp⟩)
    · exact ⟨0, by simp, by simpa using hs, hp⟩
    · exact ⟨j + 1, by simpa using hj, by simpa using hs, hp⟩

theorem decodeAttrs_observed (l : List (Option (List UInt8))) :
    ∀ t0 s s', decodeAttrs t0 l s = .ok s' → ∀ p,
      (s'.observed.testBit p = true ↔
        (s.observed.testBit p = true ∨
         ∃ i, i < l.length ∧ ((l.getD i none).isSome = true ∧
           (goBit (t0 + i)).testBit p = true))) := by
  induction l with
  | nil =>
    intro t0 s s' h p
    simp only [decodeAttrs, GoResult.ok.injEq] at h
    subst h
    simp
  | cons a rest ih =>
    intro t0 s s' h p
    have hshift : ∀ j : Nat, t0 + 1 + j = t0 + (j + 1) := fun j => by omega
    cases a with
    | none =>
      simp only [decodeAttrs] at h
      rw [ih (t0 + 1) s s' h p, exists_idx_cons]
      simp only [hshift, Option.isSome_none, Bool.false_eq_true, false_and,
        false_or]
    | some raw =>
      simp only [decodeAttrs] at h
      split at h
      · cases h
      · cases h
      · rename_i s1 heq
        obtain ⟨ho, -⟩ := decodeOneAttr_ok t0 raw s s1 heq
        rw [ih (t0 + 1) s1 s' h p, exists_idx_cons]
        simp only [ho, Nat.testBit_or, Bool.or_eq_true, hshift,
          Option.isSome_some, true_and, Nat.add_zero]
        exact or_assoc

theorem decodeAttrs_nf_mono (l : List (Option (List UInt8))) :
    ∀ t0 s s', decodeAttrs t0 l s = .ok s' → ∀ p,
      s.notFullyParsed.testBit p = true →
      s'.notFullyParsed.testBit p = true := by
  induction l with
  | nil =>
    intro t0 s s' h p hp
    simp only [decodeAttrs, GoResult.ok.injEq] at h
    subst h
    exact hp
  | cons a rest ih =>
    intro t0 s s' h p hp
    cases a with
    | none =>
      simp only [decodeAttrs] at h
      exact ih (t0 + 1) s s' h p hp
    | some raw =>
      simp only [decodeAttrs] at h
      split at h
      · cases h
      · cases h
      · rename_i s1 heq
        refine ih (t0 + 1) s1 s' h p ?_
        rcases (decodeOneAttr_ok t0 raw s s1 heq).2 with hn | hn
        · rw [hn]; exact hp
        · rw [hn, Nat.testBit_or, hp]; simp

theorem decodeAttrs_nf_subset (l : List (Option (List UInt8))) :
    ∀ t0 s s', decodeAttrs t0 l s = .ok s' →
      (∀ p, s.notFullyParsed.testBit p = true →
        s.observed.testBit p = true) →
      ∀ p, s'.notFullyParsed.testBit p = true →
        s'.observed.testBit p = true := by
  induction l with
  | nil =>
    intro t0 s s' h hinv p
    simp only [decodeAttrs, GoResult.ok.injEq] at h
    subst h
    exact hinv p
  | cons a rest ih =>
    intro t0 s s' h hinv p
    cases a with
    | none =>
      simp only [decodeAttrs] at h
      exact ih (t0 + 1) s s' h hinv p
    | some raw =>
      simp only [decodeAttrs] at h
      split at h
      · cases h
      · cases h
      · rename_i s1 heq
        obtain ⟨ho, hn⟩ := decodeOneAttr_ok t0 raw s s1 heq
        refine ih (t0 + 1) s1 s' h ?_ p
        intro q hq
        rw [ho, Nat.testBit_or, Bool.or_eq_true]
        rcases hn with hn | hn
        · rw [hn] at hq
          exact Or.inl (hinv q hq)
        · rw [hn, Nat.testBit_or, Bool.or_eq_true] at hq
          rcases hq with hq | hq
          · exact Or.inl (hinv q hq)
          · exact Or.inr hq

theorem decodeOneAttr_printOnly (t : Nat) (raw : List UInt8) (s : Snapshot)
    (ht : t = 11 ∨ t = 12 ∨ t = 13 ∨ t = 14 ∨ t = 18) :
    decodeOneAttr t raw s =
      .ok { s with
              observed := s.observed ||| goBit t
              notFullyParsed := s.notFullyParsed ||| goBit t } := by
  rcases ht with rfl | rfl | rfl | rfl | rfl <;> rfl

theorem decodeAttrs_printOnly (l : List (Option (List UInt8))) :
    ∀ t0 s s', decodeAttrs t0 l s = .ok s' →
      ∀ i, i < l.length → ((l.getD i none).isSome = true) →
      (t0 + i = 11 ∨ t0 + i = 12 ∨ t0 + i = 13 ∨ t0 + i = 14 ∨ t0 + i = 18) →
      s'.notFullyParsed.testBit (t0 + i - 1) = true := by
  induction l with
  | nil =>
    intro t0 s s' h i hi
    exact absurd hi (by simp)
  | cons a rest ih =>
    intro t0 s s' h i hi hsome hpo
    cases i with
    | zero =>
      cases a with
      | none => exact absurd hsome (by simp)
      | some raw =>
        have ht0 : t0 = 11 ∨ t0 = 12 ∨ t0 = 13 ∨ t0 = 14 ∨ t0 = 18 := by
          omega
        simp only [decodeAttrs, decodeOneAttr_printOnly t0 raw s ht0] at h
        refine decodeAttrs_nf_mono rest _ _ _ h _ ?_
        simp only [Nat.testBit_or, Bool.or_eq_true, Nat.add_zero]
        exact Or.inr (goBit_testBit_self t0 (by omega) (by omega))
    | succ j =>
      have hj : j < rest.length := by simpa using hi
      have hjs : (rest.getD j none).isSome = true := by simpa using hsome
      have hjp : t0 + 1 + j = 11 ∨ t0 + 1 + j = 12 ∨ t0 + 1 + j = 13 ∨
          t0 + 1 + j = 14 ∨ t0 + 1 + j = 18 := by omega
      have hidx : t0 + 1 + j = t0 + (j + 1) := by omega
      cases a with
      | none =>
        simp only [decodeAttrs] at h
        have := ih (t0 + 1) s s' h j hj hjs hjp
        rwa [hidx] at this
      | some raw =>
        simp only [decodeAttrs] at h
        split at h
        · cases h
        · cases h
        · rename_i s1 heq
          have := ih (t0 + 1) s1 s' h j hj hjs hjp
          rwa [hidx] at this

theorem RawInetDiagMsgParse_error (raw : List UInt8) (e : Err)
    (h : RawInetDiagMsgParse raw = .error e) : e = .parseFailed := by
  unfold RawInetDiagMsgParse at h
  split at h
  · simp only [Except.error.injEq] at h
    exact h.symm
  · cases h

theorem parseHeaderField_error (rawIDM : Option (List UInt8)) (e : Err)
    (h : parseHeaderField rawIDM = .error e) : e = .parseFailed := by
  unfold parseHeaderField at h
  split at h
  · cases h
  · rename_i raw
    split at h
    · rename_i e2 heq
      simp only [Except.error.injEq] at h
      rw [← h]
      exact RawInetDiagMsgParse_error raw e2 heq
    · cases h

theorem Decode_ok_attrs (ar : ArchivalRecord) (md : Option Metadata)
    (snap : Snapshot) (h : Decode ar = .ok (md, snap)) :
    ∃ s0 : Snapshot, s0.observed = 0 ∧ s0.notFullyParsed = 0 ∧
      decodeAttrs 0 ar.attributes s0 = .ok snap ∧ md = ar.metadata := by
  unfold Decode at h
  split at h
  · cases h
  · split at h
    · cases h
    · rename_i idm hparsed
      dsimp only at h
      split at h
      · cases h
      · cases h
      · rename_i snap2 hattrs
        simp only [GoResult.ok.injEq, Prod.mk.injEq] at h
        obtain ⟨h1, h2⟩ := h
        refine ⟨{ Snapshot.empty with timestamp := ar.timestamp, inetDiagMsg := idm },
          rfl, rfl, ?_, h1.symm⟩
        rw [← h2]
        exact hattrs

/-- C2 (amended): for every record accepted by `Decode` whose attribute
table is no longer than 256 entries, and every type `T` with `1 ≤ T ≤ 32`
inside the table's range, the `Observed` bit at position `T-1` is set iff
the table entry at index `T` is non-nil; the `NotFullyParsed` bits are
always a subset of the `Observed` bits.  The restrictions are forced by
the bit computation `uint32(1) << uint8(t-1)`: type 0 and types ≥ 33 set
no bit at all, and a type beyond 256 would alias a small type's bit. -/
theorem C2_observed_iff (ar : ArchivalRecord) (md : Option Metadata)
    (snap : Snapshot) (h : Decode ar = .ok (md, snap))
    (hlen : ar.attributes.length ≤ 256) (t : Nat)
    (ht1 : 1 ≤ t) (ht2 : t ≤ 32) (htl : t < ar.attributes.length) :
    (snap.observed.testBit (t - 1) = true ↔
      (ar.attributes.getD t none).isSome = true) ∧
    (∀ p, snap.notFullyParsed.testBit p = true →
      snap.observed.testBit p = true) := by
  obtain ⟨s0, h0o, h0n, hd, -⟩ := Decode_ok_attrs ar md snap h
  constructor
  · rw [decodeAttrs_observed ar.attributes 0 s0 snap hd (t - 1), h0o]
    simp only [Nat.zero_testBit, Bool.false_eq_true, false_or, Nat.zero_add]
    constructor
    · rintro ⟨i, hi, hsome, hbit⟩
      by_cases hit : i = t
      · subst hit
        exact hsome
      · rw [goBit_testBit_ne i t (by omega) ht1 ht2 hit] at hbit
        cases hbit
    · intro hsome
      exact ⟨t, htl, hsome, goBit_testBit_self t ht1 ht2⟩
  · intro p
    refine decodeAttrs_nf_subset ar.attributes 0 s0 snap hd ?_ p
    intro q hq
    rw [h0n] at hq
    exact absurd hq (by simp)

/-- C2 witness: a record with one full MemInfo attribute at index 1. -/
theorem C2_witness :
    (snapMemInfo.observed.testBit 0 = true ↔
      (arMemInfo.attributes.getD 1 none).isSome = true) ∧
    (snapMemInfo.notFullyParsed.testBit 0 = true →
      snapMemInfo.observed.testBit 0 = true) := by
  have h := C2_observed_iff arMemInfo (some ⟨"u", 0, 0⟩) snapMemInfo
    (by decide) (by decide) 1 (by decide) (by decide) (by decide)
  exact ⟨h.1, h.2 0⟩

/-- C2 counterexample: an accepted record with a non-nil entry at index 0
has no `Observed` bit at all (`uint32(1) << uint8(0-1)` is a shift by 255,
which is 0), so the claimed if-and-only-if fails at type 0. -/
theorem C2_counterexample :
    Decode ⟨0, none, [some []], some ⟨"u", 0, 0⟩⟩ =
      .ok (some ⟨"u", 0, 0⟩, Snapshot.empty) ∧
    ((([some []] : List (Option (List UInt8))).getD 0 none).isSome = true) ∧
    Snapshot.empty.observed = 0 := by decide

/-- C3 (amended): a record with a non-nil entry at one of the recognized-
but-not-decoded types (SKV6ONLY 11, LOCALS 12, PEERS 13, PAD 14,
MD5SIG 18) gets BOTH the `Observed` bit and the `NotFullyParsed` bit for
that type: the decoder leaves `ok = false` for these cases, so "not
implemented" is flagged exactly like a failed parse. -/
theorem C3_recognized_unimplemented (ar : ArchivalRecord)
    (md : Option Metadata) (snap : Snapshot)
    (h : Decode ar = .ok (md, snap)) (t : Nat)
    (ht : t = 11 ∨ t = 12 ∨ t = 13 ∨ t = 14 ∨ t = 18)
    (htl : t < ar.attributes.length)
    (hsome : (ar.attributes.getD t none).isSome = true) :
    snap.observed.testBit (t - 1) = true ∧
    snap.notFullyParsed.testBit (t - 1) = true := by
  obtain ⟨s0, h0o, h0n, hd, -⟩ := Decode_ok_attrs ar md snap h
  constructor
  · rw [decodeAttrs_observed ar.attributes 0 s0 snap hd (t - 1)]
    refine Or.inr ⟨t, htl, hsome, ?_⟩
    rw [Nat.zero_add]
    exact goBit_testBit_self t (by omega) (by omega)
  · have hp := decodeAttrs_printOnly ar.attributes 0 s0 snap hd t htl hsome
      (by omega)
    simpa using hp

/-- C3 witness: a record carrying one SKV6ONLY attribute (type 11) has
both bit 10 of `Observed` and bit 10 of `NotFullyParsed` set. -/
theorem C3_witness :
    snapSkv6.observed.testBit 10 = true ∧
    snapSkv6.notFullyParsed.testBit 10 = true :=
  C3_recognized_unimplemented arSkv6 (some ⟨"u", 0, 0⟩) snapSkv6
    (by decide) 11 (by decide) (by decide) (by decide)

/-- C3 counterexample: the SKV6ONLY attribute sets the `NotFullyParsed`
bit, which the claim says never happens for recognized-but-not-decoded
types. -/
theorem C3_counterexample :
    Decode arSkv6 = .ok (some ⟨"u", 0, 0⟩, snapSkv6) ∧
    snapSkv6.notFullyParsed.testBit 10 = true := by decide

/-- C8: `Decode` fails with the empty-record error exactly when both the
raw header and the metadata are nil; a record carrying only metadata, or
only a (parseable) header, is accepted and yields a snapshot. -/
theorem C8_empty_record (ar : ArchivalRecord) :
    (Decode ar = .failed .emptyRecord ↔
      (ar.rawIDM = none ∧ ar.metadata = none)) ∧
    (ar.rawIDM = none → ar.attributes = [] → ∀ md, ar.metadata = some md →
      Decode ar = .ok (some md,
        { Snapshot.empty with timestamp := ar.timestamp })) ∧
    (ar.metadata = none → ar.attributes = [] →
      ∀ raw, ar.rawIDM = some raw → inetDiagMsgSize ≤ raw.length →
      Decode ar = .ok (none,
        { Snapshot.empty with
            timestamp := ar.timestamp
            inetDiagMsg := some (raw.take inetDiagMsgSize) })) := by
  refine ⟨⟨?_, ?_⟩, ?_, ?_⟩
  · intro h
    unfold Decode at h
    split at h
    · rename_i hcond
      rw [Bool.and_eq_true, Option.isNone_iff_eq_none,
        Option.isNone_iff_eq_none] at hcond
      exact ⟨hcond.2, hcond.1⟩
    · dsimp only at h
      split at h
      · rename_i e hp
        have := parseHeaderField_error ar.rawIDM e hp
        subst this
        simp only [GoResult.failed.injEq] at h
        cases h
      · split at h
        · cases h
        · rename_i e2 hattrs
          exact absurd hattrs (decodeAttrs_ne_failed ar.attributes 0 _ e2)
        · cases h
  · rintro ⟨h1, h2⟩
    unfold Decode
    rw [h1, h2]
    simp
  · intro hr he md hm
    unfold Decode
    rw [hm, hr, he]
    simp [parseHeaderField, decodeAttrs, Snapshot.empty]
  · intro hm he raw hr hsz
    unfold Decode
    rw [hm, hr, he]
    simp [parseHeaderField, decodeAttrs, RawInetDiagMsgParse, Snapshot.empty,
      Nat.not_lt.mpr hsz]

/-- C8 witness: the three cases at concrete records — both absent, only
metadata, only a 72-byte header. -/
theorem C8_witness :
    Decode ⟨5, none, [], none⟩ = .failed .emptyRecord ∧
    Decode ⟨5, none, [], some ⟨"u", 1, 2⟩⟩ =
      .ok (some ⟨"u", 1, 2⟩, { Snapshot.empty with timestamp := 5 }) ∧
    Decode ⟨5, some (List.replicate 72 0), [], none⟩ =
      .ok (none,
        { Snapshot.empty with
            timestamp := 5
            inetDiagMsg := some ((List.replicate 72 0).take inetDiagMsgSize) }) := by
  refine ⟨?_, ?_, ?_⟩
  · exact (C8_empty_record ⟨5, none, [], none⟩).1.mpr ⟨rfl, rfl⟩
  · exact (C8_empty_record ⟨5, none, [], some ⟨"u", 1, 2⟩⟩).2.1 rfl rfl
      ⟨"u", 1, 2⟩ rfl
  · exact (C8_empty_record ⟨5, some (List.replicate 72 0), [], none⟩).2.2 rfl
      rfl (List.replicate 72 0) rfl (by decide)

/-- C10 counterexample: a non-zero kernel-reported code (1) with matching
seq/pid is not surfaced as an error value — the classifier returns the
message itself with a nil error. -/
theorem C10_counterexample :
    nativeUint32 [1, 0, 0, 0] ≠ 0 ∧
    processSingleMessage ⟨⟨16, 2, 0, 0, 0⟩, [1, 0, 0, 0]⟩ 0 0 =
      (some ⟨⟨16, 2, 0, 0, 0⟩, [1, 0, 0, 0]⟩, false, none) := by decide

theorem table_foldl_length (attrs : List NetlinkRouteAttr) (bound : Nat) :
    ∀ tbl : List (Option (List UInt8)),
      (attrs.foldl (fun tbl a =>
        if a.attrType > bound then tbl
        else tbl.set a.attrType (some a.value)) tbl).length = tbl.length := by
  induction attrs with
  | nil => intro tbl; rfl
  | cons a rest ih =>
    intro tbl
    simp only [List.foldl_cons]
    rw [ih]
    split <;> simp

theorem replicate_none_getD (n t : Nat) :
    ((List.replicate n (none : Option (List UInt8))).getD t none) = none := by
  rw [List.getD_eq_getElem?_getD, List.getElem?_replicate]
  split <;> rfl

theorem table_foldl_getD (bound t : Nat) (ht : t ≤ bound)
    (attrs : List NetlinkRouteAttr) :
    ∀ tbl : List (Option (List UInt8)), tbl.length = bound + 1 →
      ((attrs.foldl (fun tbl a =>
          if a.attrType > bound then tbl
          else tbl.set a.attrType (some a.value)) tbl).getD t none) =
        attrs.foldl (fun acc a =>
          if a.attrType = t then some a.value else acc) (tbl.getD t none) := by
  induction attrs with
  | nil => intro tbl hlen; rfl
  | cons a rest ih =>
    intro tbl hlen
    simp only [List.foldl_cons]
    rw [ih _ (by rw [← hlen]; split <;> simp)]
    congr 1
    by_cases hgt : a.attrType > bound
    · rw [if_pos hgt, if_neg (by omega)]
    · rw [if_neg hgt]
      by_cases heq : a.attrType = t
      · subst heq
        rw [if_pos rfl, List.getD_eq_getElem?_getD,
          List.getElem?_set_eq_of_lt _ (by omega)]
        rfl
      · rw [if_neg heq, List.getD_eq_getElem?_getD,
          List.getElem?_set_ne heq, ← List.getD_eq_getElem?_getD]

/-- C9: for every accepted message whose attribute bytes split into the
TLV list `attrs`, `MakeArchivalRecord` succeeds and builds the attribute
table with length `min(max observed type, 2*INET_DIAG_MAX) + 1`; every
attribute with a type beyond that bound is skipped without failing the
record, and each in-range slot holds the value of the last attribute of
that type. -/
theorem C9_attribute_table (msg : NetlinkMessage)
    (attrs : List NetlinkRouteAttr)
    (h20 : msg.header.msgType = SOCK_DIAG_BY_FAMILY)
    (hlen : inetDiagMsgSize ≤ msg.data.length)
    (ha : ParseRouteAttr (msg.data.drop inetDiagMsgSize) = .ok attrs) :
    ∃ rec, MakeArchivalRecord msg = .ok rec ∧
      rec.attributes.length =
        min (maxAttrTypeOf attrs) (2 * INET_DIAG_MAX) + 1 ∧
      ∀ t, t ≤ min (maxAttrTypeOf attrs) (2 * INET_DIAG_MAX) →
        rec.attributes.getD t none = lastAttrValue attrs t := by
  have hbnd : (if maxAttrTypeOf attrs > 2 * INET_DIAG_MAX
      then 2 * INET_DIAG_MAX else maxAttrTypeOf attrs) =
      min (maxAttrTypeOf attrs) (2 * INET_DIAG_MAX) := by
    split <;> omega
  have hsplit : SplitInetDiagMsg msg.data =
      some (msg.data.take inetDiagMsgSize, msg.data.drop inetDiagMsgSize) := by
    unfold SplitInetDiagMsg
    rw [if_neg (Nat.not_lt.mpr hlen)]
  unfold MakeArchivalRecord
  rw [if_neg (by simp [h20]), hsplit]
  dsimp only
  rw [ha]
  dsimp only
  rw [hbnd]
  refine ⟨_, rfl, ?_, ?_⟩
  · rw [table_foldl_length, List.length_replicate]
  · intro t ht
    rw [table_foldl_getD _ t ht attrs _ (by rw [List.length_replicate]),
      replicate_none_getD]
    rfl

/-- C9 witness: the sample message with one type-5 attribute produces a
six-entry table whose slot 5 holds the attribute value. -/
theorem C9_witness :
    MakeArchivalRecord msgSample = .ok recSample ∧
    recSample.attributes.length = 6 ∧
    recSample.attributes.getD 5 none = some [1, 2, 3, 4] := by
  have hpar : ParseRouteAttr [8, 0, 5, 0, 1, 2, 3, 4] = .ok attrsSample := by
    rw [ParseRouteAttr_step [8, 0, 5, 0, 1, 2, 3, 4] (by decide) 8 5
      [1, 2, 3, 4] 8 (by rfl) (by decide)]
    rw [ParseRouteAttr_short _ (by decide)]
    rfl
  have hdrop : msgSample.data.drop inetDiagMsgSize = [8, 0, 5, 0, 1, 2, 3, 4] := by
    decide
  have hpar2 : ParseRouteAttr (msgSample.data.drop inetDiagMsgSize) =
      .ok attrsSample := by rw [hdrop]; exact hpar
  obtain ⟨rec, h1, h2, h3⟩ := C9_attribute_table msgSample attrsSample rfl
    (by decide) hpar2
  have hMake : MakeArchivalRecord msgSample = .ok recSample := by
    unfold MakeArchivalRecord
    rw [if_neg (by decide),
      show SplitInetDiagMsg msgSample.data =
        some (List.replicate 72 0, [8, 0, 5, 0, 1, 2, 3, 4]) from by decide]
    dsimp only
    rw [hpar]
    decide
  have hrec : rec = recSample := by
    have := hMake.symm.trans h1
    simpa using this.symm
  subst hrec
  exact ⟨hMake, h2.trans (by decide), (h3 5 (by decide)).trans (by decide)⟩

end Parser
